import Mathlib

/-!
Shallow embedding of `update_bundled_db.py` (football-player-trivia).

Python strings are modelled as `List Char`; the CSV aggregation dictionary
(`player_aggregates`, a Python dict keyed by `f"{player_id}_{team}"`) as an
insertion-ordered association list; the sqlite database as a record holding
the committed rows of the `snap_counts` table together with a flag for
whether the database file exists.  A run of `update_database` either
succeeds, exits via `sys.exit(1)` (missing database file), or aborts with an
uncaught `ValueError` from `int()` mid-parse; in the two failure cases no
`conn.commit()` has happened, so the committed table is unchanged.
-/

namespace SnapCounts

/-- Python strings, modelled as lists of characters. -/
abbrev Str := List Char

/-- Characters removed by Python `str.strip()` (ASCII whitespace). -/
def pyIsSpace (c : Char) : Bool :=
  c == ' ' || c == '\t' || c == '\n' || c == '\r' || c == '\x0b' || c == '\x0c'

/-- Python `s.strip()`: drop leading and trailing whitespace. -/
def pstrip (s : Str) : Str :=
  ((s.dropWhile pyIsSpace).reverse.dropWhile pyIsSpace).reverse

/-- Python `s.split(sep)` for a one-character separator given by the
predicate `p`: every occurrence of the separator splits, and empty pieces
are kept (`"".split(sep) == [""]`, `",".split(",") == ["", ""]`). -/
def pySplit (p : Char → Bool) : Str → List Str
  | [] => [[]]
  | c :: cs =>
    if p c then
      [] :: pySplit p cs
    else
      match pySplit p cs with
      | [] => [[c]]
      | f :: r => (c :: f) :: r

/-- Digit tail of Python `int()` parsing: after a first digit has been
consumed into `acc`, consume further digits, allowing a single `_`
between two digits (as Python does), and fail on anything else. -/
def pyDigitsGo (acc : Nat) : Str → Option Nat
  | [] => some acc
  | '_' :: rest =>
    match rest with
    | [] => none
    | c :: cs => if c.isDigit then pyDigitsGo (10 * acc + (c.toNat - 48)) cs else none
  | c :: cs => if c.isDigit then pyDigitsGo (10 * acc + (c.toNat - 48)) cs else none

/-- Nonempty digit string (with Python's underscore grouping) to a number. -/
def pyDigits : Str → Option Nat
  | [] => none
  | c :: cs => if c.isDigit then pyDigitsGo (c.toNat - 48) cs else none

/-- Python `int(s)` on an already-stripped string: optional sign followed by
digits; anything else raises `ValueError`, modelled as `none`. -/
def pyInt : Str → Option Int
  | '+' :: cs => (pyDigits cs).map (fun n => (n : Int))
  | '-' :: cs => (pyDigits cs).map (fun n => -(n : Int))
  | s => (pyDigits s).map (fun n => (n : Int))

/-- The numeric-column read `int(columns[i].strip() or 0)`: an empty (or
whitespace-only) field is the falsy `""`, so `int(0) = 0`; otherwise the
stripped text must parse as an integer. -/
def parseSnap (s : Str) : Option Int :=
  let t := pstrip s
  if t = [] then some 0 else pyInt t

/-- One value of the `player_aggregates` dict: the tuple
`(id, name, team, pos, off, def, st)` built in `update_database`. -/
structure Agg where
  player_id : Str
  player_name : Str
  team : Str
  position : Str
  offense_snaps : Int
  defense_snaps : Int
  st_snaps : Int
deriving Repr, DecidableEq

/-- The `player_aggregates` Python dict: insertion-ordered association
list from composite key to aggregate tuple. -/
abbrev AggDict := List (Str × Agg)

/-- Python `key in dict` / `dict[key]` read: first (only) binding of `k`. -/
def lookup : AggDict → Str → Option Agg
  | [], _ => none
  | (k, v) :: d, k' => if k' = k then some v else lookup d k'

/-- Python `dict[key] = v` for a key already present: replace the binding
in place (position in the insertion order is preserved). -/
def setKey (d : AggDict) (k : Str) (v : Agg) : AggDict :=
  d.map (fun p => if p.1 = k then (k, v) else p)

/-- Column split of one raw CSV line: `line.split(',')`. -/
def lineCols (l : Str) : List Str :=
  pySplit (fun c => c == ',') l

/-- Field `columns[5].strip()` — player name. -/
def lineName (l : Str) : Str := pstrip ((lineCols l).getD 5 [])

/-- Field `columns[6].strip()` — player identifier. -/
def lineId (l : Str) : Str := pstrip ((lineCols l).getD 6 [])

/-- Field `columns[7].strip()` — position. -/
def linePos (l : Str) : Str := pstrip ((lineCols l).getD 7 [])

/-- Field `columns[8].strip()` — team. -/
def lineTeam (l : Str) : Str := pstrip ((lineCols l).getD 8 [])

/-- Numeric field `int(columns[10].strip() or 0)` — offense snaps. -/
def lineOff (l : Str) : Option Int := parseSnap ((lineCols l).getD 10 [])

/-- Numeric field `int(columns[12].strip() or 0)` — defense snaps. -/
def lineDef (l : Str) : Option Int := parseSnap ((lineCols l).getD 12 [])

/-- Numeric field `int(columns[14].strip() or 0)` — special-teams snaps. -/
def lineSt (l : Str) : Option Int := parseSnap ((lineCols l).getD 14 [])

/-- Composite key `f"{player_id}_{team}"`. -/
def lineKey (l : Str) : Str := lineId l ++ '_' :: lineTeam l

/-- Loop body of the parsing loop in `update_database`: skip blank lines and
lines with fewer than 16 comma-separated fields; otherwise parse the three
numeric fields (`none` models the uncaught `ValueError`), then either add
onto the existing aggregate for the key (keeping the stored id, name, team
and position) or insert a fresh aggregate built from this row. -/
def processLine (d : AggDict) (l : Str) : Option AggDict :=
  if pstrip l = [] then some d
  else if (lineCols l).length < 16 then some d
  else
    match lineOff l, lineDef l, lineSt l with
    | some offense_snaps, some defense_snaps, some st_snaps =>
      match lookup d (lineKey l) with
      | some existing =>
        some (setKey d (lineKey l)
          { existing with
              offense_snaps := existing.offense_snaps + offense_snaps
              defense_snaps := existing.defense_snaps + defense_snaps
              st_snaps := existing.st_snaps + st_snaps })
      | none =>
        some (d ++ [(lineKey l,
          { player_id := lineId l
            player_name := lineName l
            team := lineTeam l
            position := linePos l
            offense_snaps := offense_snaps
            defense_snaps := defense_snaps
            st_snaps := st_snaps })])
    | _, _, _ => none

/-- The whole parsing loop `for line in lines[1:]`, threading the dict and
propagating a `ValueError` (`none`) from any line. -/
def aggregateLines : AggDict → List Str → Option AggDict
  | d, [] => some d
  | d, l :: ls =>
    match processLine d l with
    | none => none
    | some d' => aggregateLines d' ls

/-- All lines of the payload: `csv_data.strip().split('\n')`. -/
def csvLines (csv : Str) : List Str :=
  pySplit (fun c => c == '\n') (pstrip csv)

/-- The data lines `lines[1:]` (header dropped unconditionally). -/
def dataLines (csv : Str) : List Str :=
  (csvLines csv).drop 1

/-- The aggregation phase of `update_database`: build `player_aggregates`
from the downloaded text, or fail with an uncaught `ValueError`. -/
def parseCSV (csv : Str) : Option AggDict :=
  aggregateLines [] (dataLines csv)

/-- One committed row of the `snap_counts` table. -/
structure Row where
  player_id : Str
  player_name : Str
  season : Int
  team : Str
  position : Str
  offense_snaps : Int
  defense_snaps : Int
  st_snaps : Int
deriving Repr, DecidableEq

/-- The persisted store: whether the database file exists, and the committed
rows of the `snap_counts` table. -/
structure DB where
  dbExists : Bool
  rows : List Row
deriving Repr, DecidableEq

/-- How a run of `update_database` terminates: normal return, `sys.exit(1)`
for a missing database file, or an uncaught `ValueError` mid-parse. -/
inductive Outcome
  | ok
  | exitFailure
  | parseFailure
deriving Repr, DecidableEq

/-- Process exit status: 0 on success, 1 for `sys.exit(1)` and 1 for an
uncaught exception. -/
def exitStatus : Outcome → Nat
  | .ok => 0
  | .exitFailure => 1
  | .parseFailure => 1

/-- The row inserted for one aggregate: `VALUES (?, ?, 2025, ?, ?, ?, ?, ?)`
with the hardcoded season. -/
def rowOfAgg (p : Agg) : Row :=
  { player_id := p.player_id
    player_name := p.player_name
    season := 2025
    team := p.team
    position := p.position
    offense_snaps := p.offense_snaps
    defense_snaps := p.defense_snaps
    st_snaps := p.st_snaps }

/-- Concatenated key of a stored row, `f"{player_id}_{team}"`. -/
def rowKey (r : Row) : Str := r.player_id ++ '_' :: r.team

/-- One run of `update_database csv_data` against the committed store.
The file-existence check precedes everything; the `DELETE FROM snap_counts
WHERE season = 2025` and the inserts are only committed by the final
`conn.commit()`, so on a mid-parse `ValueError` the committed rows are
unchanged (the open transaction is rolled back when the process dies). -/
def update_database (csv : Str) (db : DB) : Outcome × DB :=
  if db.dbExists = false then (.exitFailure, db)
  else
    match parseCSV csv with
    | none => (.parseFailure, db)
    | some aggs =>
      (.ok, { dbExists := db.dbExists
              rows := db.rows.filter (fun r => !(r.season == 2025))
                        ++ aggs.map (fun kp => rowOfAgg kp.2) })

/-- Rows of the target season in the committed table. -/
def seasonRows (db : DB) : List Row :=
  db.rows.filter (fun r => r.season == 2025)

/-- A raw line that the loop actually processes: non-blank and at least 16
comma-separated fields. -/
def isDataRow (l : Str) : Bool :=
  !(pstrip l == []) && decide (16 ≤ (lineCols l).length)

/-- Data lines of the input whose composite key equals `k`. -/
def matchingKey (lines : List Str) (k : Str) : List Str :=
  lines.filter (fun l => isDataRow l && decide (lineKey l = k))

/-- Data lines whose own `(player_identifier, team)` pair is `(pid, tm)` —
the grouping the specification describes. -/
def matchingPair (lines : List Str) (pid tm : Str) : List Str :=
  lines.filter (fun l => isDataRow l && decide (lineId l = pid) && decide (lineTeam l = tm))

/-- Sum of parsed offense snaps over the data lines with key `k`. -/
def sumOffKey (lines : List Str) (k : Str) : Int :=
  ((matchingKey lines k).map (fun l => (lineOff l).getD 0)).sum

/-- Sum of parsed defense snaps over the data lines with key `k`. -/
def sumDefKey (lines : List Str) (k : Str) : Int :=
  ((matchingKey lines k).map (fun l => (lineDef l).getD 0)).sum

/-- Sum of parsed special-teams snaps over the data lines with key `k`. -/
def sumStKey (lines : List Str) (k : Str) : Int :=
  ((matchingKey lines k).map (fun l => (lineSt l).getD 0)).sum

/-- Sum of parsed offense snaps over the data lines whose
`(player_identifier, team)` pair is `(pid, tm)`. -/
def sumOffPair (lines : List Str) (pid tm : Str) : Int :=
  ((matchingPair lines pid tm).map (fun l => (lineOff l).getD 0)).sum

/-- A line carrying non-empty, non-numeric content in one of the three
numeric field positions: exactly the condition under which `int()` raises. -/
def hasMalformedNumeric (l : Str) : Bool :=
  (lineOff l).isNone || (lineDef l).isNone || (lineSt l).isNone

/-- Every binding of the aggregate dict has the key
`player_id ++ "_" ++ team` built from its own stored fields. -/
def wellKeyed (d : AggDict) : Prop :=
  ∀ p ∈ d, p.2.player_id ++ '_' :: p.2.team = p.1

/-- Example payload: header plus two rows for the same `(42, NE)` key. -/
def exTwoRows : Str :=
  "h\n,,,,,Tom,42,QB,NE,,10,,0,,0,\n,,,,,Tom,42,QB,NE,,5,,0,,0,".toList

/-- Example payload whose two rows share a key but disagree on the name. -/
def exRename : Str :=
  "h\n,,,,,Tom,42,QB,NE,,10,,0,,0,\n,,,,,Tim,42,QB,NE,,5,,0,,0,".toList

/-- Example payload where the distinct pairs `("a_b", "c")` and
`("a", "b_c")` collide on the concatenated key `"a_b_c"`. -/
def exColl : Str :=
  "h\n,,,,,NA,a_b,,c,,1,,0,,0,\n,,,,,NB,a,,b_c,,2,,0,,0,".toList

/-- Example payload with a 15-field line carrying `x` in the offense
column. -/
def exShortBad : Str :=
  "h\na,b,c,d,e,f,g,h,i,j,x,l,m,n,o".toList

/-- Its single data line. -/
def exShortBadLine : Str :=
  "a,b,c,d,e,f,g,h,i,j,x,l,m,n,o".toList

/-- Example payload with a 16-field line carrying `x` in the offense
column. -/
def exLongBad : Str :=
  "h\n,,,,,N,9,P,T,,x,,0,,0,".toList

/-- Its single data line. -/
def exLongBadLine : Str :=
  ",,,,,N,9,P,T,,x,,0,,0,".toList

/-- Example payload with a negative offense value. -/
def exNeg : Str :=
  "h\n,,,,,N,9,P,T,,-5,,0,,0,".toList

/-- Example payload consisting of a single header line. -/
def exHeaderOnly : Str :=
  "  header only  ".toList

/-- Example row of an earlier season. -/
def exRow2024 : Row :=
  { player_id := "z".toList, player_name := "Z".toList, season := 2024,
    team := "T".toList, position := [], offense_snaps := 1,
    defense_snaps := 2, st_snaps := 3 }

/-- Example stale row of the target season. -/
def exRow2025 : Row :=
  { player_id := "w".toList, player_name := "W".toList, season := 2025,
    team := "U".toList, position := [], offense_snaps := 4,
    defense_snaps := 5, st_snaps := 6 }

/-- Example store holding one old-season row and one stale 2025 row. -/
def exDb : DB :=
  { dbExists := true, rows := [exRow2024, exRow2025] }

/-- Example store whose database file is missing. -/
def exDbMissing : DB :=
  { dbExists := false, rows := [exRow2024] }

/-- Second data line of `exColl`, carrying the pair `("a", "b_c")`. -/
def exCollLineB : Str :=
  ",,,,,NB,a,,b_c,,2,,0,,0,".toList

/-- First data line of `exRename`. -/
def exRenameLineA : Str :=
  ",,,,,Tom,42,QB,NE,,10,,0,,0,".toList

/-- Second data line of `exRename`, same key but name `Tim`. -/
def exRenameLineB : Str :=
  ",,,,,Tim,42,QB,NE,,5,,0,,0,".toList

/-- The composite key of the two rows of `exTwoRows`. -/
def exTwoKey : Str :=
  "42_NE".toList

/-- The aggregate record built from `exTwoRows` (also from `exRename`). -/
def exTwoAgg : Agg :=
  { player_id := "42".toList, player_name := "Tom".toList, team := "NE".toList,
    position := "QB".toList, offense_snaps := 15, defense_snaps := 0, st_snaps := 0 }

/-- The aggregate dict built from `exTwoRows`. -/
def exTwoDict : AggDict :=
  [(exTwoKey, exTwoAgg)]

/-- Example data line with an empty offense column and `3` defense snaps,
the specification's `(id=7, team=KC, off="", def="3", st="0")` example. -/
def exEmptyOffLine : Str :=
  ",,,,,N,7,P,KC,,,,3,,0,".toList

/-- Example pre-existing aggregate under the key `7_KC`. -/
def exAgg7 : Agg :=
  { player_id := "7".toList, player_name := "N".toList, team := "KC".toList,
    position := "P".toList, offense_snaps := 2, defense_snaps := 1, st_snaps := 1 }

/-- Example dict already holding the key `7_KC`. -/
def exDict7 : AggDict :=
  [("7_KC".toList, exAgg7)]

/-! Association-list lemmas for the aggregate dict. -/

theorem lookup_cons (a : Str) (b : Agg) (d : AggDict) (k : Str) :
    lookup ((a, b) :: d) k = if k = a then some b else lookup d k := rfl

theorem setKey_cons (a : Str) (b : Agg) (d : AggDict) (k : Str) (v : Agg) :
    setKey ((a, b) :: d) k v = (if a = k then (k, v) else (a, b)) :: setKey d k v := by
  rfl

theorem lookup_setKey_self {d : AggDict} {k : Str} {r : Agg} (v : Agg)
    (h : lookup d k = some r) : lookup (setKey d k v) k = some v := by
  induction d with
  | nil => simp [lookup] at h
  | cons p d ih =>
    obtain ⟨a, b⟩ := p
    rw [setKey_cons]
    by_cases hk : a = k
    · subst hk
      rw [if_pos rfl, lookup_cons, if_pos rfl]
    · have hne : ¬ (k = a) := fun hh => hk hh.symm
      rw [lookup_cons, if_neg hne] at h
      rw [if_neg hk, lookup_cons, if_neg hne]
      exact ih h

theorem lookup_setKey_ne {d : AggDict} {k k' : Str} (v : Agg) (h : k' ≠ k) :
    lookup (setKey d k v) k' = lookup d k' := by
  induction d with
  | nil => rfl
  | cons p d ih =>
    obtain ⟨a, b⟩ := p
    rw [setKey_cons]
    by_cases hk : a = k
    · rw [if_pos hk, lookup_cons, if_neg h, ih, lookup_cons]
      have hka : ¬ (k' = a) := by rw [hk]; exact h
      rw [if_neg hka]
    · rw [if_neg hk, lookup_cons, lookup_cons]
      by_cases hka : k' = a
      · rw [if_pos hka, if_pos hka]
      · rw [if_neg hka, if_neg hka, ih]

theorem lookup_append_right {d : AggDict} {k : Str} (e : AggDict)
    (h : lookup d k = none) : lookup (d ++ e) k = lookup e k := by
  induction d with
  | nil => simp
  | cons p d ih =>
    obtain ⟨a, b⟩ := p
    by_cases hka : k = a
    · simp [lookup, hka] at h
    · simp only [List.cons_append, lookup, if_neg hka] at h ⊢
      exact ih h

theorem lookup_append_left {d e : AggDict} {k : Str} {r : Agg}
    (h : lookup d k = some r) : lookup (d ++ e) k = some r := by
  induction d with
  | nil => simp [lookup] at h
  | cons p d ih =>
    obtain ⟨a, b⟩ := p
    by_cases hka : k = a
    · simp only [lookup, if_pos hka] at h
      simp only [List.cons_append, lookup, if_pos hka]
      exact h
    · simp only [List.cons_append, lookup, if_neg hka] at h ⊢
      exact ih h

theorem lookup_single_self (k : Str) (v : Agg) : lookup [(k, v)] k = some v := by
  simp [lookup]

theorem lookup_eq_none_iff {d : AggDict} {k : Str} :
    lookup d k = none ↔ k ∉ d.map Prod.fst := by
  induction d with
  | nil => simp [lookup]
  | cons p d ih =>
    obtain ⟨a, b⟩ := p
    rw [lookup_cons, List.map_cons]
    by_cases hka : k = a
    · rw [if_pos hka]
      exact iff_of_false (fun h => Option.noConfusion h)
        (fun h => h (by rw [hka]; exact List.mem_cons_self a _))
    · rw [if_neg hka, ih]
      constructor
      · intro h hmem
        rcases List.mem_cons.1 hmem with h1 | h2
        · exact hka h1
        · exact h h2
      · intro h hmem
        exact h (List.mem_cons_of_mem _ hmem)

theorem lookup_mem {d : AggDict} {k : Str} {r : Agg}
    (h : lookup d k = some r) : (k, r) ∈ d := by
  induction d with
  | nil => simp [lookup] at h
  | cons p d ih =>
    obtain ⟨a, b⟩ := p
    rw [lookup_cons] at h
    by_cases hka : k = a
    · rw [if_pos hka] at h
      injection h with h
      exact List.mem_cons.2 (Or.inl (by rw [hka, ← h]))
    · rw [if_neg hka] at h
      exact List.mem_cons_of_mem _ (ih h)

theorem keys_setKey (d : AggDict) (k : Str) (v : Agg) :
    (setKey d k v).map Prod.fst = d.map Prod.fst := by
  induction d with
  | nil => rfl
  | cons p d ih =>
    obtain ⟨a, b⟩ := p
    by_cases hk : a = k
    · subst hk
      simp only [setKey, List.map_cons] at ih ⊢
      simp [ih]
    · simp only [setKey, List.map_cons] at ih ⊢
      simp [hk, ih]

theorem mem_setKey {d : AggDict} {k : Str} {v : Agg} {p : Str × Agg}
    (h : p ∈ setKey d k v) : p = (k, v) ∨ p ∈ d := by
  simp only [setKey, List.mem_map] at h
  obtain ⟨q, hq, hpq⟩ := h
  by_cases hk : q.1 = k
  · left
    rw [← hpq, if_pos hk]
  · right
    rw [← hpq, if_neg hk]
    exact hq

/-! Lemmas about blank lines and the column split. -/

theorem all_space_of_pstrip_nil {l : Str} (h : pstrip l = []) :
    ∀ c ∈ l, pyIsSpace c = true := by
  unfold pstrip at h
  rw [List.reverse_eq_nil_iff, List.dropWhile_eq_nil_iff] at h
  intro c hc
  rw [← List.takeWhile_append_dropWhile pyIsSpace l] at hc
  rcases List.mem_append.1 hc with h1 | h2
  · exact List.mem_takeWhile_imp h1
  · exact h c (List.mem_reverse.2 h2)

theorem pySplit_no_sep {p : Char → Bool} :
    ∀ {l : Str}, (∀ c ∈ l, p c = false) → pySplit p l = [l]
  | [], _ => rfl
  | c :: cs, h => by
    have hc : p c = false := h c (List.mem_cons_self c cs)
    have ih := pySplit_no_sep (fun x hx => h x (List.mem_cons_of_mem _ hx))
    simp [pySplit, hc, ih]

theorem not_comma_of_space {c : Char} (h : pyIsSpace c = true) :
    (c == ',') = false := by
  by_cases hc : c = ','
  · rw [hc] at h
    exact absurd h (by decide)
  · exact beq_eq_false_iff_ne.mpr hc

theorem cols_of_blank {l : Str} (h : pstrip l = []) : lineCols l = [l] := by
  apply pySplit_no_sep
  intro c hc
  exact not_comma_of_space (all_space_of_pstrip_nil h c hc)

theorem notBlank_of_cols {l : Str} (h : 16 ≤ (lineCols l).length) :
    ¬ (pstrip l = []) := by
  intro hb
  rw [cols_of_blank hb] at h
  simp at h

/-! Lemmas about one step of the parsing loop. -/

theorem isDataRow_iff {l : Str} : isDataRow l = true ↔ 16 ≤ (lineCols l).length := by
  constructor
  · intro h
    simp only [isDataRow, Bool.and_eq_true, decide_eq_true_eq] at h
    exact h.2
  · intro h
    simp only [isDataRow, Bool.and_eq_true, decide_eq_true_eq, Bool.not_eq_true',
      beq_eq_false_iff_ne]
    exact ⟨notBlank_of_cols h, h⟩

theorem processLine_skip {d : AggDict} {l : Str} (h : isDataRow l = false) :
    processLine d l = some d := by
  by_cases hb : pstrip l = []
  · simp [processLine, hb]
  · have h16 : (lineCols l).length < 16 := by
      by_contra hcon
      rw [isDataRow_iff.2 (Nat.le_of_not_lt hcon)] at h
      exact Bool.noConfusion h
    simp [processLine, hb, h16]

theorem processLine_data {d : AggDict} {l : Str} (h : 16 ≤ (lineCols l).length) :
    processLine d l =
      match lineOff l, lineDef l, lineSt l with
      | some o, some de, some s =>
        (match lookup d (lineKey l) with
         | some existing =>
           some (setKey d (lineKey l)
             { existing with
                 offense_snaps := existing.offense_snaps + o
                 defense_snaps := existing.defense_snaps + de
                 st_snaps := existing.st_snaps + s })
         | none =>
           some (d ++ [(lineKey l,
             { player_id := lineId l
               player_name := lineName l
               team := lineTeam l
               position := linePos l
               offense_snaps := o
               defense_snaps := de
               st_snaps := s })]))
      | _, _, _ => none := by
  have hb := notBlank_of_cols h
  have h2 : ¬ ((lineCols l).length < 16) := Nat.not_lt.2 h
  simp [processLine, hb, h2]

theorem processLine_parses {d d' : AggDict} {l : Str}
    (h16 : 16 ≤ (lineCols l).length) (h : processLine d l = some d') :
    ∃ o de s, lineOff l = some o ∧ lineDef l = some de ∧ lineSt l = some s := by
  rw [processLine_data h16] at h
  cases ho : lineOff l with
  | none => rw [ho] at h; exact Option.noConfusion h
  | some o =>
    cases hd : lineDef l with
    | none => rw [ho, hd] at h; exact Option.noConfusion h
    | some de =>
      cases hs : lineSt l with
      | none => rw [ho, hd, hs] at h; exact Option.noConfusion h
      | some s => exact ⟨o, de, s, rfl, rfl, rfl⟩

theorem processLine_malformed {d : AggDict} {l : Str}
    (h16 : 16 ≤ (lineCols l).length) (h : hasMalformedNumeric l = true) :
    processLine d l = none := by
  rw [processLine_data h16]
  simp only [hasMalformedNumeric, Bool.or_eq_true, Option.isNone_iff_eq_none] at h
  cases ho : lineOff l with
  | none => rfl
  | some o =>
    cases hd : lineDef l with
    | none => rfl
    | some de =>
      cases hs : lineSt l with
      | none => rfl
      | some s =>
        exfalso
        rw [ho, hd, hs] at h
        rcases h with (h | h) | h <;> exact Option.noConfusion h

theorem processLine_update {d : AggDict} {l : Str} {o de s : Int} {r : Agg}
    (h16 : 16 ≤ (lineCols l).length)
    (ho : lineOff l = some o) (hd : lineDef l = some de) (hs : lineSt l = some s)
    (hr : lookup d (lineKey l) = some r) :
    processLine d l = some (setKey d (lineKey l)
      { r with
          offense_snaps := r.offense_snaps + o
          defense_snaps := r.defense_snaps + de
          st_snaps := r.st_snaps + s }) := by
  rw [processLine_data h16, ho, hd, hs, hr]

theorem processLine_insert {d : AggDict} {l : Str} {o de s : Int}
    (h16 : 16 ≤ (lineCols l).length)
    (ho : lineOff l = some o) (hd : lineDef l = some de) (hs : lineSt l = some s)
    (hn : lookup d (lineKey l) = none) :
    processLine d l = some (d ++ [(lineKey l,
      { player_id := lineId l
        player_name := lineName l
        team := lineTeam l
        position := linePos l
        offense_snaps := o
        defense_snaps := de
        st_snaps := s })]) := by
  rw [processLine_data h16, ho, hd, hs, hn]

theorem processLine_cases {d0 d1 : AggDict} {l : Str} (h : processLine d0 l = some d1) :
    d1 = d0 ∨
    (∃ r o de s, lookup d0 (lineKey l) = some r ∧
       d1 = setKey d0 (lineKey l)
         { r with
             offense_snaps := r.offense_snaps + o
             defense_snaps := r.defense_snaps + de
             st_snaps := r.st_snaps + s }) ∨
    (∃ o de s, lookup d0 (lineKey l) = none ∧
       d1 = d0 ++ [(lineKey l,
         { player_id := lineId l
           player_name := lineName l
           team := lineTeam l
           position := linePos l
           offense_snaps := o
           defense_snaps := de
           st_snaps := s })]) := by
  cases hdr : isDataRow l with
  | false =>
    left
    rw [processLine_skip hdr] at h
    injection h with h
    exact h.symm
  | true =>
    have h16 := isDataRow_iff.1 hdr
    obtain ⟨o, de, s, ho, hd, hs⟩ := processLine_parses h16 h
    cases hlk : lookup d0 (lineKey l) with
    | some r =>
      right; left
      rw [processLine_update h16 ho hd hs hlk] at h
      injection h with h
      exact ⟨r, o, de, s, rfl, h.symm⟩
    | none =>
      right; right
      rw [processLine_insert h16 ho hd hs hlk] at h
      injection h with h
      exact ⟨o, de, s, rfl, h.symm⟩

/-! Lemmas about the matching rows and their sums. -/

theorem matchingKey_cons (l : Str) (ls : List Str) (k : Str) :
    matchingKey (l :: ls) k =
      if isDataRow l && decide (lineKey l = k) then l :: matchingKey ls k
      else matchingKey ls k := by
  simp [matchingKey, List.filter_cons]

theorem sumOffKey_cons_pos {l : Str} {ls : List Str} {k : Str} {o : Int}
    (h : (isDataRow l && decide (lineKey l = k)) = true) (ho : lineOff l = some o) :
    sumOffKey (l :: ls) k = o + sumOffKey ls k := by
  simp [sumOffKey, matchingKey_cons, h, ho]

theorem sumDefKey_cons_pos {l : Str} {ls : List Str} {k : Str} {de : Int}
    (h : (isDataRow l && decide (lineKey l = k)) = true) (hd : lineDef l = some de) :
    sumDefKey (l :: ls) k = de + sumDefKey ls k := by
  simp [sumDefKey, matchingKey_cons, h, hd]

theorem sumStKey_cons_pos {l : Str} {ls : List Str} {k : Str} {s : Int}
    (h : (isDataRow l && decide (lineKey l = k)) = true) (hs : lineSt l = some s) :
    sumStKey (l :: ls) k = s + sumStKey ls k := by
  simp [sumStKey, matchingKey_cons, h, hs]

theorem sumOffKey_cons_neg {l : Str} {ls : List Str} {k : Str}
    (h : (isDataRow l && decide (lineKey l = k)) = false) :
    sumOffKey (l :: ls) k = sumOffKey ls k := by
  simp [sumOffKey, matchingKey_cons, h]

theorem sumDefKey_cons_neg {l : Str} {ls : List Str} {k : Str}
    (h : (isDataRow l && decide (lineKey l = k)) = false) :
    sumDefKey (l :: ls) k = sumDefKey ls k := by
  simp [sumDefKey, matchingKey_cons, h]

theorem sumStKey_cons_neg {l : Str} {ls : List Str} {k : Str}
    (h : (isDataRow l && decide (lineKey l = k)) = false) :
    sumStKey (l :: ls) k = sumStKey ls k := by
  simp [sumStKey, matchingKey_cons, h]

/-! Lemmas about the whole parsing loop. -/

theorem aggregateLines_nil (d : AggDict) : aggregateLines d [] = some d := rfl

theorem aggregateLines_cons (d : AggDict) (l : Str) (ls : List Str) :
    aggregateLines d (l :: ls) =
      match processLine d l with
      | none => none
      | some d' => aggregateLines d' ls := rfl

theorem aggregateLines_cons_some {d0 d : AggDict} {l : Str} {ls : List Str}
    (h : aggregateLines d0 (l :: ls) = some d) :
    ∃ d1, processLine d0 l = some d1 ∧ aggregateLines d1 ls = some d := by
  rw [aggregateLines_cons] at h
  cases hp : processLine d0 l with
  | none => rw [hp] at h; exact Option.noConfusion h
  | some d1 => rw [hp] at h; exact ⟨d1, rfl, h⟩

theorem aggregateLines_present :
    ∀ (lines : List Str) (d0 d : AggDict) (k : Str) (r0 : Agg),
      aggregateLines d0 lines = some d → lookup d0 k = some r0 →
      lookup d k = some
        { player_id := r0.player_id
          player_name := r0.player_name
          team := r0.team
          position := r0.position
          offense_snaps := r0.offense_snaps + sumOffKey lines k
          defense_snaps := r0.defense_snaps + sumDefKey lines k
          st_snaps := r0.st_snaps + sumStKey lines k }
  | [], d0, d, k, r0, h, h0 => by
    rw [aggregateLines_nil] at h
    injection h with h
    rw [← h]
    simpa [sumOffKey, sumDefKey, sumStKey, matchingKey] using h0
  | l :: ls, d0, d, k, r0, h, h0 => by
    obtain ⟨d1, hp, hrest⟩ := aggregateLines_cons_some h
    cases hdr : isDataRow l with
    | false =>
      rw [processLine_skip hdr] at hp
      injection hp with hp
      have hcond : (isDataRow l && decide (lineKey l = k)) = false := by rw [hdr]; rfl
      rw [sumOffKey_cons_neg hcond, sumDefKey_cons_neg hcond, sumStKey_cons_neg hcond]
      exact aggregateLines_present ls d1 d k r0 hrest (by rw [← hp]; exact h0)
    | true =>
      have h16 := isDataRow_iff.1 hdr
      obtain ⟨o, de, s, ho, hd, hs⟩ := processLine_parses h16 hp
      by_cases hkey : lineKey l = k
      · have hcond : (isDataRow l && decide (lineKey l = k)) = true := by
          rw [hdr, decide_eq_true hkey]; rfl
        have hval := aggregateLines_present ls d1 d k
          { r0 with
              offense_snaps := r0.offense_snaps + o
              defense_snaps := r0.defense_snaps + de
              st_snaps := r0.st_snaps + s } hrest ?_
        · rw [sumOffKey_cons_pos hcond ho, sumDefKey_cons_pos hcond hd,
            sumStKey_cons_pos hcond hs]
          simpa [add_assoc] using hval
        · rw [processLine_update h16 ho hd hs (by rw [hkey]; exact h0)] at hp
          injection hp with hp
          rw [← hp, hkey]
          exact lookup_setKey_self _ h0
      · have hcond : (isDataRow l && decide (lineKey l = k)) = false := by
          rw [decide_eq_false hkey]; exact Bool.and_false _
        rw [sumOffKey_cons_neg hcond, sumDefKey_cons_neg hcond, sumStKey_cons_neg hcond]
        have h1 : lookup d1 k = some r0 := by
          cases hlk : lookup d0 (lineKey l) with
          | some ex =>
            rw [processLine_update h16 ho hd hs hlk] at hp
            injection hp with hp
            rw [← hp, lookup_setKey_ne _ (fun hh => hkey hh.symm)]
            exact h0
          | none =>
            rw [processLine_insert h16 ho hd hs hlk] at hp
            injection hp with hp
            rw [← hp]
            exact lookup_append_left h0
        exact aggregateLines_present ls d1 d k r0 hrest h1

theorem aggregateLines_absent :
    ∀ (lines : List Str) (d0 d : AggDict) (k : Str),
      aggregateLines d0 lines = some d → lookup d0 k = none →
      matchingKey lines k = [] → lookup d k = none
  | [], d0, d, k, h, h0, _ => by
    rw [aggregateLines_nil] at h
    injection h with h
    rw [← h]
    exact h0
  | l :: ls, d0, d, k, h, h0, hm => by
    obtain ⟨d1, hp, hrest⟩ := aggregateLines_cons_some h
    rw [matchingKey_cons] at hm
    by_cases hc : (isDataRow l && decide (lineKey l = k)) = true
    · rw [if_pos hc] at hm
      exact absurd hm (List.cons_ne_nil _ _)
    · rw [if_neg hc] at hm
      cases hdr : isDataRow l with
      | false =>
        rw [processLine_skip hdr] at hp
        injection hp with hp
        exact aggregateLines_absent ls d1 d k hrest (by rw [← hp]; exact h0) hm
      | true =>
        have h16 := isDataRow_iff.1 hdr
        obtain ⟨o, de, s, ho, hd, hs⟩ := processLine_parses h16 hp
        have hkey : ¬ (lineKey l = k) := by
          intro hh
          exact hc (by rw [hdr, decide_eq_true hh]; rfl)
        have h1 : lookup d1 k = none := by
          cases hlk : lookup d0 (lineKey l) with
          | some ex =>
            rw [processLine_update h16 ho hd hs hlk] at hp
            injection hp with hp
            rw [← hp, lookup_setKey_ne _ (fun hh => hkey hh.symm)]
            exact h0
          | none =>
            rw [processLine_insert h16 ho hd hs hlk] at hp
            injection hp with hp
            rw [← hp, lookup_append_right _ h0, lookup_cons,
              if_neg (fun hh => hkey hh.symm)]
            rfl
        exact aggregateLines_absent ls d1 d k hrest h1 hm

theorem aggregateLines_inserted :
    ∀ (lines : List Str) (d0 d : AggDict) (k : Str) (l0 : Str) (rest : List Str),
      aggregateLines d0 lines = some d → lookup d0 k = none →
      matchingKey lines k = l0 :: rest →
      lookup d k = some
        { player_id := lineId l0
          player_name := lineName l0
          team := lineTeam l0
          position := linePos l0
          offense_snaps := sumOffKey lines k
          defense_snaps := sumDefKey lines k
          st_snaps := sumStKey lines k }
  | [], _, _, k, _, _, _, _, hm => by
    simp [matchingKey] at hm
  | l :: ls, d0, d, k, l0, rest, h, h0, hm => by
    obtain ⟨d1, hp, hrest⟩ := aggregateLines_cons_some h
    rw [matchingKey_cons] at hm
    cases hdr : isDataRow l with
    | false =>
      have hcond : (isDataRow l && decide (lineKey l = k)) = false := by rw [hdr]; rfl
      rw [if_neg (by rw [hcond]; exact Bool.false_ne_true)] at hm
      rw [processLine_skip hdr] at hp
      injection hp with hp
      rw [sumOffKey_cons_neg hcond, sumDefKey_cons_neg hcond, sumStKey_cons_neg hcond]
      exact aggregateLines_inserted ls d1 d k l0 rest hrest (by rw [← hp]; exact h0) hm
    | true =>
      have h16 := isDataRow_iff.1 hdr
      obtain ⟨o, de, s, ho, hd, hs⟩ := processLine_parses h16 hp
      by_cases hkey : lineKey l = k
      · have hcond : (isDataRow l && decide (lineKey l = k)) = true := by
          rw [hdr, decide_eq_true hkey]; rfl
        rw [if_pos hcond] at hm
        injection hm with hm1 hm2
        have hlk : lookup d0 (lineKey l) = none := by rw [hkey]; exact h0
        rw [processLine_insert h16 ho hd hs hlk] at hp
        injection hp with hp
        have h1 : lookup d1 k = some
            { player_id := lineId l
              player_name := lineName l
              team := lineTeam l
              position := linePos l
              offense_snaps := o
              defense_snaps := de
              st_snaps := s } := by
          rw [← hp, lookup_append_right _ h0, lookup_cons, if_pos hkey.symm]
        have hval := aggregateLines_present ls d1 d k _ hrest h1
        rw [sumOffKey_cons_pos hcond ho, sumDefKey_cons_pos hcond hd,
          sumStKey_cons_pos hcond hs, ← hm1]
        exact hval
      · have hcond : (isDataRow l && decide (lineKey l = k)) = false := by
          rw [decide_eq_false hkey]; exact Bool.and_false _
        rw [if_neg (by rw [hcond]; exact Bool.false_ne_true)] at hm
        have h1 : lookup d1 k = none := by
          cases hlk : lookup d0 (lineKey l) with
          | some ex =>
            rw [processLine_update h16 ho hd hs hlk] at hp
            injection hp with hp
            rw [← hp, lookup_setKey_ne _ (fun hh => hkey hh.symm)]
            exact h0
          | none =>
            rw [processLine_insert h16 ho hd hs hlk] at hp
            injection hp with hp
            rw [← hp, lookup_append_right _ h0, lookup_cons,
              if_neg (fun hh => hkey hh.symm)]
            rfl
        rw [sumOffKey_cons_neg hcond, sumDefKey_cons_neg hcond, sumStKey_cons_neg hcond]
        exact aggregateLines_inserted ls d1 d k l0 rest hrest h1 hm

theorem aggregateLines_fails :
    ∀ (lines : List Str) (d0 : AggDict) (l : Str),
      l ∈ lines → (∀ d, processLine d l = none) →
      aggregateLines d0 lines = none
  | [], _, _, hl, _ => absurd hl (List.not_mem_nil _)
  | x :: ls, d0, l, hl, hf => by
    rw [aggregateLines_cons]
    rcases List.mem_cons.1 hl with rfl | hmem
    · rw [hf d0]
    · cases hx : processLine d0 x with
      | none => rfl
      | some d1 => exact aggregateLines_fails ls d1 l hmem hf

theorem aggregateLines_nodup :
    ∀ (lines : List Str) (d0 d : AggDict),
      aggregateLines d0 lines = some d →
      (d0.map Prod.fst).Nodup → (d.map Prod.fst).Nodup
  | [], d0, d, h, h0 => by
    rw [aggregateLines_nil] at h
    injection h with h
    rw [← h]
    exact h0
  | l :: ls, d0, d, h, h0 => by
    obtain ⟨d1, hp, hrest⟩ := aggregateLines_cons_some h
    have h1 : (d1.map Prod.fst).Nodup := by
      rcases processLine_cases hp with rfl | ⟨r, o, de, s, hlk, rfl⟩ | ⟨o, de, s, hlk, rfl⟩
      · exact h0
      · rw [keys_setKey]
        exact h0
      · rw [List.map_append]
        refine h0.append (List.nodup_singleton _) ?_
        intro a ha hb
        rw [List.map_singleton, List.mem_singleton] at hb
        have hb' : a = lineKey l := hb
        exact lookup_eq_none_iff.1 hlk (hb' ▸ ha)
    exact aggregateLines_nodup ls d1 d hrest h1

theorem aggregateLines_wellKeyed :
    ∀ (lines : List Str) (d0 d : AggDict),
      aggregateLines d0 lines = some d → wellKeyed d0 → wellKeyed d
  | [], d0, d, h, h0 => by
    rw [aggregateLines_nil] at h
    injection h with h
    rw [← h]
    exact h0
  | l :: ls, d0, d, h, h0 => by
    obtain ⟨d1, hp, hrest⟩ := aggregateLines_cons_some h
    have h1 : wellKeyed d1 := by
      rcases processLine_cases hp with rfl | ⟨r, o, de, s, hlk, rfl⟩ | ⟨o, de, s, hlk, rfl⟩
      · exact h0
      · intro p hp'
        rcases mem_setKey hp' with rfl | hmem
        · exact h0 (lineKey l, r) (lookup_mem hlk)
        · exact h0 _ hmem
      · intro p hp'
        rcases List.mem_append.1 hp' with hmem | hmem
        · exact h0 _ hmem
        · rw [List.mem_singleton] at hmem
          rw [hmem]
          rfl
    exact aggregateLines_wellKeyed ls d1 d hrest h1

/-! Bridge lemmas from the aggregation loop to the whole-run statements. -/

theorem parseCSV_lookup_char {csv : Str} {d : AggDict} {k : Str} {r : Agg}
    (hp : parseCSV csv = some d) (hr : lookup d k = some r) :
    ∃ l0 rest, matchingKey (dataLines csv) k = l0 :: rest ∧
      r = { player_id := lineId l0
            player_name := lineName l0
            team := lineTeam l0
            position := linePos l0
            offense_snaps := sumOffKey (dataLines csv) k
            defense_snaps := sumDefKey (dataLines csv) k
            st_snaps := sumStKey (dataLines csv) k } := by
  cases hm : matchingKey (dataLines csv) k with
  | nil =>
    rw [aggregateLines_absent (dataLines csv) [] d k hp rfl hm] at hr
    exact Option.noConfusion hr
  | cons l0 rest =>
    have hv := aggregateLines_inserted (dataLines csv) [] d k l0 rest hp rfl hm
    rw [hr] at hv
    injection hv with hv
    exact ⟨l0, rest, rfl, hv⟩

theorem parseCSV_mem_iff {csv : Str} {d : AggDict} (hp : parseCSV csv = some d)
    (k : Str) : k ∈ d.map Prod.fst ↔ matchingKey (dataLines csv) k ≠ [] := by
  constructor
  · intro hmem hm
    exact lookup_eq_none_iff.1 (aggregateLines_absent _ [] d k hp rfl hm) hmem
  · intro hne
    cases hm : matchingKey (dataLines csv) k with
    | nil => exact absurd hm hne
    | cons l0 rest =>
      have hv := aggregateLines_inserted _ [] d k l0 rest hp rfl hm
      by_contra hmem
      rw [lookup_eq_none_iff.2 hmem] at hv
      exact Option.noConfusion hv

theorem parseCSV_nodup {csv : Str} {d : AggDict} (hp : parseCSV csv = some d) :
    (d.map Prod.fst).Nodup :=
  aggregateLines_nodup _ [] d hp List.nodup_nil

theorem parseCSV_wellKeyed {csv : Str} {d : AggDict} (hp : parseCSV csv = some d) :
    wellKeyed d :=
  aggregateLines_wellKeyed _ [] d hp (fun _ hq => absurd hq (List.not_mem_nil _))

theorem update_database_noDb (csv : Str) {db : DB} (h : db.dbExists = false) :
    update_database csv db = (Outcome.exitFailure, db) := by
  simp [update_database, h]

theorem update_database_parseFail (csv : Str) {db : DB} (h : db.dbExists = true)
    (hp : parseCSV csv = none) :
    update_database csv db = (Outcome.parseFailure, db) := by
  simp [update_database, h, hp]

theorem update_database_ok {csv : Str} {db : DB} {aggs : AggDict}
    (h : db.dbExists = true) (hp : parseCSV csv = some aggs) :
    update_database csv db = (Outcome.ok,
      { dbExists := db.dbExists
        rows := db.rows.filter (fun r => !(r.season == 2025))
                  ++ aggs.map (fun kp => rowOfAgg kp.2) }) := by
  simp [update_database, h, hp]

theorem rowOfAgg_season (p : Agg) : (rowOfAgg p).season = 2025 := rfl

theorem filter_insert_nil (aggs : AggDict) :
    (aggs.map (fun kp => rowOfAgg kp.2)).filter (fun r => !(r.season == 2025)) = [] := by
  rw [List.filter_eq_nil_iff]
  intro a ha
  rw [List.mem_map] at ha
  obtain ⟨kp, _, rfl⟩ := ha
  simp [rowOfAgg]

theorem filter_insert_all (aggs : AggDict) :
    (aggs.map (fun kp => rowOfAgg kp.2)).filter (fun r => r.season == 2025) =
      aggs.map (fun kp => rowOfAgg kp.2) := by
  rw [List.filter_eq_self]
  intro a ha
  rw [List.mem_map] at ha
  obtain ⟨kp, _, rfl⟩ := ha
  simp [rowOfAgg]

theorem filter_kept_no2025 (rows : List Row) :
    ((rows.filter (fun r => !(r.season == 2025))).filter (fun r => r.season == 2025)) = [] := by
  rw [List.filter_eq_nil_iff]
  intro a ha
  have h2 := (List.mem_filter.1 ha).2
  simp only [Bool.not_eq_true', beq_eq_false_iff_ne] at h2
  simp only [beq_iff_eq]
  exact h2

theorem filter_kept_idem (rows : List Row) :
    ((rows.filter (fun r => !(r.season == 2025))).filter (fun r => !(r.season == 2025))) =
      rows.filter (fun r => !(r.season == 2025)) := by
  rw [List.filter_filter]
  simp

theorem insert_keys (aggs : AggDict) (hw : wellKeyed aggs) :
    (aggs.map (fun kp => rowOfAgg kp.2)).map rowKey = aggs.map Prod.fst := by
  rw [List.map_map]
  apply List.map_congr_left
  intro kp hkp
  exact hw kp hkp

theorem update_database_dbExists (csv : Str) (db : DB) :
    (update_database csv db).2.dbExists = db.dbExists := by
  cases hdb : db.dbExists with
  | false => rw [update_database_noDb csv hdb, hdb]
  | true =>
    cases hp : parseCSV csv with
    | none => rw [update_database_parseFail csv hdb hp, hdb]
    | some aggs => rw [update_database_ok hdb hp]; exact hdb

/-! Claim C1.  The claim as stated groups by the `(player_identifier, team)`
pair, but the code keys the dict by the concatenation `id + "_" + team`, so
two distinct pairs can collide: in `exColl` the rows carry `("a_b", "c")`
and `("a", "b_c")`, both of which concatenate to `a_b_c`.  The stored record
at the key of `("a_b", "c")` sums both rows (offense 3), while the sum over
the rows whose own pair is `("a_b", "c")` is 1. -/

/-- Claim C1 (counterexample): on `exColl`, the aggregate record stored at
the composite key of the pair `("a_b", "c")` has offense 3, but the sum of
offense over the raw rows whose own pair is `("a_b", "c")` is 1, so the
record's numeric fields do not equal the per-pair sums. -/
theorem C1_counterexample :
    (parseCSV exColl).map (fun d =>
        (lookup d ("a_b".toList ++ '_' :: "c".toList)).map Agg.offense_snaps) =
      some (some 3) ∧
    sumOffPair (dataLines exColl) ("a_b".toList) ("c".toList) = 1 ∧
    ¬ ((parseCSV exColl).map (fun d =>
        (lookup d ("a_b".toList ++ '_' :: "c".toList)).map Agg.offense_snaps) =
      some (some (sumOffPair (dataLines exColl) ("a_b".toList) ("c".toList)))) := by
  exact ⟨by decide, by decide, by decide⟩

/-- Claim C1 (amended): for every input text and every composite key string,
the three numeric fields of the aggregate record stored at that key equal
the arithmetic sums of the corresponding positional numeric fields across
exactly those non-blank, at-least-16-field raw rows whose own concatenated
`player_identifier + "_" + team` equals that key. -/
theorem C1_amended (csv : Str) (d : AggDict) (k : Str) (r : Agg)
    (hp : parseCSV csv = some d) (hr : lookup d k = some r) :
    r.offense_snaps = sumOffKey (dataLines csv) k ∧
    r.defense_snaps = sumDefKey (dataLines csv) k ∧
    r.st_snaps = sumStKey (dataLines csv) k := by
  obtain ⟨l0, rest, hm, hrec⟩ := parseCSV_lookup_char hp hr
  rw [hrec]
  exact ⟨rfl, rfl, rfl⟩

/-- Claim C1 (witness): the amended theorem applied to `exTwoRows`, whose
two rows for the key `42_NE` sum to offense 15. -/
theorem C1_amended_witness :
    exTwoAgg.offense_snaps = sumOffKey (dataLines exTwoRows) exTwoKey ∧
    exTwoAgg.defense_snaps = sumDefKey (dataLines exTwoRows) exTwoKey ∧
    exTwoAgg.st_snaps = sumStKey (dataLines exTwoRows) exTwoKey :=
  C1_amended exTwoRows exTwoDict exTwoKey exTwoAgg (by decide) (by decide)

/-! Claim C2.  Same collision as C1: the pair `("a", "b_c")` is observed
among the valid input rows of `exColl`, yet the resulting store holds no
2025 row whose own `(player_id, team)` is `("a", "b_c")`. -/

/-- Claim C2 (counterexample): on `exColl` run against `exDb`, the pair
`("a", "b_c")` is observed in a valid data row, the run succeeds, and yet
the fact table holds zero 2025 rows whose own `(player_id, team)` is
`("a", "b_c")` — not exactly one as the claim requires. -/
theorem C2_counterexample :
    isDataRow exCollLineB = true ∧
    exCollLineB ∈ dataLines exColl ∧
    lineId exCollLineB = "a".toList ∧
    lineTeam exCollLineB = "b_c".toList ∧
    (update_database exColl exDb).1 = Outcome.ok ∧
    ((update_database exColl exDb).2.rows.filter (fun r =>
        decide (r.player_id = "a".toList) && decide (r.team = "b_c".toList)
          && (r.season == 2025))).length = 0 := by
  exact ⟨by decide, by decide, by decide, by decide, by decide, by decide⟩

/-- Claim C2 (amended): after a successful run, the 2025 rows of the fact
table have pairwise-distinct concatenated keys, a concatenated key occurs
among them exactly when some valid input row carries it, and the rows of
other seasons are untouched. -/
theorem C2_amended (csv : Str) (db : DB) (aggs : AggDict)
    (hdb : db.dbExists = true) (hp : parseCSV csv = some aggs) :
    (((update_database csv db).2.rows.filter (fun r => r.season == 2025)).map rowKey).Nodup ∧
    (∀ k, k ∈ ((update_database csv db).2.rows.filter (fun r => r.season == 2025)).map rowKey
        ↔ matchingKey (dataLines csv) k ≠ []) ∧
    (update_database csv db).2.rows.filter (fun r => !(r.season == 2025)) =
      db.rows.filter (fun r => !(r.season == 2025)) := by
  have hw := parseCSV_wellKeyed hp
  have hrows : (update_database csv db).2.rows =
      db.rows.filter (fun r => !(r.season == 2025))
        ++ aggs.map (fun kp => rowOfAgg kp.2) := by
    rw [update_database_ok hdb hp]
  have hseason : (update_database csv db).2.rows.filter (fun r => r.season == 2025) =
      aggs.map (fun kp => rowOfAgg kp.2) := by
    rw [hrows, List.filter_append, filter_kept_no2025, filter_insert_all, List.nil_append]
  refine ⟨?_, ?_, ?_⟩
  · rw [hseason, insert_keys aggs hw]
    exact parseCSV_nodup hp
  · intro k
    rw [hseason, insert_keys aggs hw]
    exact parseCSV_mem_iff hp k
  · rw [hrows, List.filter_append, filter_insert_nil, List.append_nil, filter_kept_idem]

/-- Claim C2 (witness): the amended theorem applied to `exTwoRows` against
`exDb`, with the membership conjunct instantiated at the key `42_NE`. -/
theorem C2_amended_witness :
    (((update_database exTwoRows exDb).2.rows.filter (fun r => r.season == 2025)).map rowKey).Nodup ∧
    (exTwoKey ∈ ((update_database exTwoRows exDb).2.rows.filter (fun r => r.season == 2025)).map rowKey
        ↔ matchingKey (dataLines exTwoRows) exTwoKey ≠ []) ∧
    (update_database exTwoRows exDb).2.rows.filter (fun r => !(r.season == 2025)) =
      exDb.rows.filter (fun r => !(r.season == 2025)) := by
  have h := C2_amended exTwoRows exDb exTwoDict (by decide) (by decide)
  exact ⟨h.1, h.2.1 exTwoKey, h.2.2⟩

/-- Claim C3 (confirmed): running `update_database` twice in sequence with
identical input text yields the same final list of 2025 rows in the fact
table as running it once (the model ignores sqlite rowids, which churn). -/
theorem C3_idempotent (csv : Str) (db : DB) :
    seasonRows (update_database csv (update_database csv db).2).2 =
      seasonRows (update_database csv db).2 := by
  cases hdb : db.dbExists with
  | false =>
    have h1 := update_database_noDb csv hdb
    have h2 : (update_database csv db).2 = db := congrArg Prod.snd h1
    rw [h2, h2]
  | true =>
    cases hp : parseCSV csv with
    | none =>
      have h1 := update_database_parseFail csv hdb hp
      have h2 : (update_database csv db).2 = db := congrArg Prod.snd h1
      rw [h2, h2]
    | some aggs =>
      have hrows1 : (update_database csv db).2.rows =
          db.rows.filter (fun r => !(r.season == 2025))
            ++ aggs.map (fun kp => rowOfAgg kp.2) := by
        rw [update_database_ok hdb hp]
      have hdb1 : (update_database csv db).2.dbExists = true := by
        rw [update_database_dbExists, hdb]
      have hrows2 : (update_database csv (update_database csv db).2).2.rows =
          (update_database csv db).2.rows.filter (fun r => !(r.season == 2025))
            ++ aggs.map (fun kp => rowOfAgg kp.2) := by
        rw [update_database_ok hdb1 hp]
      have h3 : (update_database csv (update_database csv db).2).2.rows =
          (update_database csv db).2.rows := by
        rw [hrows2, hrows1, List.filter_append, filter_kept_idem, filter_insert_nil,
          List.append_nil]
      unfold seasonRows
      rw [h3]

/-! Claim C4.  The spec says later rows overwrite name/position/team, but
lines 95-98 of `update_database` keep `existing[0..3]` unchanged, so the
stored non-numeric fields come from the FIRST row seen for the key. -/

/-- Claim C4 (counterexample): in `exRename` the last raw row for key
`42_NE` carries the name `Tim`, yet the stored record keeps the first
row's name `Tom`, so the non-numeric fields are not overwritten with the
current row's values. -/
theorem C4_counterexample :
    dataLines exRename = [exRenameLineA, exRenameLineB] ∧
    lineKey exRenameLineB = exTwoKey ∧
    lineName exRenameLineB = "Tim".toList ∧
    (parseCSV exRename).map (fun d => (lookup d exTwoKey).map Agg.player_name) =
      some (some ("Tom".toList)) ∧
    ¬ ("Tom".toList = "Tim".toList) := by
  exact ⟨by decide, by decide, by decide, by decide, by decide⟩

/-- Claim C4 (amended): when later raw rows are processed for an
already-seen key, the aggregate's id, name, team and position keep the
values of the first raw row processed for that key (they are preserved,
not overwritten). -/
theorem C4_amended (csv : Str) (d : AggDict) (k : Str) (r : Agg)
    (l0 : Str) (rest : List Str)
    (hp : parseCSV csv = some d)
    (hm : matchingKey (dataLines csv) k = l0 :: rest)
    (hr : lookup d k = some r) :
    r.player_name = lineName l0 ∧ r.position = linePos l0 ∧
    r.team = lineTeam l0 ∧ r.player_id = lineId l0 := by
  obtain ⟨l0', rest', hm', hrec⟩ := parseCSV_lookup_char hp hr
  rw [hm] at hm'
  injection hm' with h1 h2
  rw [hrec, ← h1]
  exact ⟨rfl, rfl, rfl, rfl⟩

/-- Claim C4 (witness): the amended theorem applied to `exRename`, where
the first matching row carries the name `Tom`. -/
theorem C4_amended_witness :
    exTwoAgg.player_name = lineName exRenameLineA ∧
    exTwoAgg.position = linePos exRenameLineA ∧
    exTwoAgg.team = lineTeam exRenameLineA ∧
    exTwoAgg.player_id = lineId exRenameLineA :=
  C4_amended exRename exTwoDict exTwoKey exTwoAgg exRenameLineA [exRenameLineB]
    (by decide) (by decide) (by decide)

/-! Claim C5.  A data line with malformed numeric content but fewer than 16
fields is skipped by the field-count check before any `int()` call, so the
run succeeds; the claim only holds for lines with at least 16 fields. -/

/-- Claim C5 (counterexample): `exShortBad` has a non-blank data line with
non-empty, non-numeric content (`x`) in the offense position, but only 15
fields, so the run succeeds instead of failing fatally. -/
theorem C5_counterexample :
    pstrip exShortBadLine ≠ [] ∧
    exShortBadLine ∈ dataLines exShortBad ∧
    hasMalformedNumeric exShortBadLine = true ∧
    (update_database exShortBad exDb).1 = Outcome.ok := by
  exact ⟨by decide, by decide, by decide, by decide⟩

/-- Claim C5 (amended): if any data line with at least 16 fields carries
non-empty, non-numeric content in a numeric field position, the run fails
fatally mid-parse with an uncaught `ValueError`, and the committed store
is exactly what it was before the run. -/
theorem C5_amended (csv : Str) (db : DB) (l : Str)
    (hdb : db.dbExists = true) (hl : l ∈ dataLines csv)
    (h16 : 16 ≤ (lineCols l).length) (hbad : hasMalformedNumeric l = true) :
    update_database csv db = (Outcome.parseFailure, db) ∧
    exitStatus (update_database csv db).1 = 1 := by
  have hfail : parseCSV csv = none :=
    aggregateLines_fails (dataLines csv) [] l hl
      (fun d => processLine_malformed h16 hbad)
  have hu := update_database_parseFail csv hdb hfail
  exact ⟨hu, by rw [hu]; rfl⟩

/-- Claim C5 (witness): the amended theorem applied to `exLongBad`, whose
single 16-field data line carries `x` in the offense position. -/
theorem C5_amended_witness :
    update_database exLongBad exDb = (Outcome.parseFailure, exDb) ∧
    exitStatus (update_database exLongBad exDb).1 = 1 :=
  C5_amended exLongBad exDb exLongBadLine (by decide) (by decide) (by decide)
    (by decide)

/-- Claim C6 (confirmed): if the store file does not exist, the run
terminates via `sys.exit(1)` with exit status 1 before any mutation, the
store is returned unchanged, and no store is created. -/
theorem C6_missing_store (csv : Str) (db : DB) (h : db.dbExists = false) :
    update_database csv db = (Outcome.exitFailure, db) ∧
    exitStatus (update_database csv db).1 = 1 ∧
    (update_database csv db).2.dbExists = false := by
  have hu := update_database_noDb csv h
  exact ⟨hu, by rw [hu]; rfl, by rw [hu]; exact h⟩

/-- Claim C6 (witness): the theorem applied to `exDbMissing`. -/
theorem C6_missing_store_witness :
    update_database exTwoRows exDbMissing = (Outcome.exitFailure, exDbMissing) ∧
    exitStatus (update_database exTwoRows exDbMissing).1 = 1 ∧
    (update_database exTwoRows exDbMissing).2.dbExists = false :=
  C6_missing_store exTwoRows exDbMissing (by decide)

/-- Claim C7 (confirmed): a non-blank data line splitting into fewer than
16 fields is silently skipped — it leaves the aggregate dict unchanged and
raises no error — while a line with at least 16 fields is processed: it
either raises the fatal numeric parse failure or lands its key in the
dict. -/
theorem C7_short_rows (d : AggDict) (l : Str) :
    (pstrip l ≠ [] → (lineCols l).length < 16 → processLine d l = some d) ∧
    (16 ≤ (lineCols l).length →
      processLine d l = none ∨
      ∃ d', processLine d l = some d' ∧ lookup d' (lineKey l) ≠ none) := by
  constructor
  · intro h1 h2
    apply processLine_skip
    simp only [isDataRow]
    rw [decide_eq_false (Nat.not_le.2 h2)]
    exact Bool.and_false _
  · intro h16
    cases hpl : processLine d l with
    | none => left; rfl
    | some d1 =>
      right
      refine ⟨d1, rfl, ?_⟩
      obtain ⟨o, de, s, ho, hd, hs⟩ := processLine_parses h16 hpl
      cases hlk : lookup d (lineKey l) with
      | some r =>
        rw [processLine_update h16 ho hd hs hlk] at hpl
        injection hpl with hpl
        rw [← hpl, lookup_setKey_self _ hlk]
        exact fun hh => Option.noConfusion hh
      | none =>
        rw [processLine_insert h16 ho hd hs hlk] at hpl
        injection hpl with hpl
        rw [← hpl, lookup_append_right _ hlk, lookup_cons, if_pos rfl]
        exact fun hh => Option.noConfusion hh

/-- Claim C7 (witness): the theorem applied to the 15-field line of
`exShortBad` (skipped) and to the 16-field line `exCollLineB`
(processed). -/
theorem C7_short_rows_witness :
    processLine [] exShortBadLine = some [] ∧
    (processLine [] exCollLineB = none ∨
      ∃ d', processLine [] exCollLineB = some d' ∧
        lookup d' (lineKey exCollLineB) ≠ none) :=
  ⟨(C7_short_rows [] exShortBadLine).1 (by decide) (by decide),
   (C7_short_rows [] exCollLineB).2 (by decide)⟩

/-- Claim C8 (confirmed): a valid row whose offense field is empty (or
whitespace-only — the text is stripped first) contributes zero to the
offense sum for its key, while the defense and special-teams fields
contribute their parsed values, both when the key is already present and
when the row creates the record. -/
theorem C8_empty_field (d : AggDict) (l : Str) (de s : Int)
    (h16 : 16 ≤ (lineCols l).length)
    (hoff : pstrip ((lineCols l).getD 10 []) = [])
    (hd : lineDef l = some de) (hs : lineSt l = some s) :
    (∀ r, lookup d (lineKey l) = some r →
        processLine d l = some (setKey d (lineKey l)
          { r with
              offense_snaps := r.offense_snaps + 0
              defense_snaps := r.defense_snaps + de
              st_snaps := r.st_snaps + s })) ∧
    (lookup d (lineKey l) = none →
        processLine d l = some (d ++ [(lineKey l,
          { player_id := lineId l
            player_name := lineName l
            team := lineTeam l
            position := linePos l
            offense_snaps := 0
            defense_snaps := de
            st_snaps := s })])) := by
  have ho : lineOff l = some 0 := by
    simp only [lineOff, parseSnap, hoff]
    rfl
  exact ⟨fun r hr => processLine_update h16 ho hd hs hr,
         fun hn => processLine_insert h16 ho hd hs hn⟩

/-- Claim C8 (witness): the theorem applied to the specification's own
example row `(id=7, team=KC, off="", def="3", st="0")`, against a dict
already holding the key `7_KC` and against the empty dict. -/
theorem C8_empty_field_witness :
    processLine exDict7 exEmptyOffLine = some (setKey exDict7 (lineKey exEmptyOffLine)
      { exAgg7 with
          offense_snaps := exAgg7.offense_snaps + 0
          defense_snaps := exAgg7.defense_snaps + 3
          st_snaps := exAgg7.st_snaps + 0 }) ∧
    processLine [] exEmptyOffLine = some ([] ++ [(lineKey exEmptyOffLine,
      { player_id := lineId exEmptyOffLine
        player_name := lineName exEmptyOffLine
        team := lineTeam exEmptyOffLine
        position := linePos exEmptyOffLine
        offense_snaps := 0
        defense_snaps := 3
        st_snaps := 0 })]) :=
  ⟨(C8_empty_field exDict7 exEmptyOffLine 3 0 (by decide) (by decide) (by decide)
      (by decide)).1 exAgg7 (by decide),
   (C8_empty_field [] exEmptyOffLine 3 0 (by decide) (by decide) (by decide)
      (by decide)).2 (by decide)⟩

/-! Claim C9.  Python `int()` accepts negative literals, so a `-5` in a
numeric column parses fine and makes the aggregate negative; the `≥ 0`
part of the claim fails. -/

/-- Claim C9 (counterexample): `exNeg` parses without a fatal failure, yet
the resulting record's offense value is `-5 < 0`. -/
theorem C9_counterexample :
    (parseCSV exNeg).map (fun d => (lookup d ("9_T".toList)).map Agg.offense_snaps) =
      some (some (-5)) ∧
    ((-5 : Int) < 0) := by
  exact ⟨by decide, by decide⟩

/-- Claim C9 (amended): the aggregate values are integers, and they are
nonnegative whenever every data line's parsed numeric fields are
nonnegative (the input format itself allows negative literals). -/
theorem C9_amended (csv : Str) (d : AggDict) (k : Str) (r : Agg)
    (hp : parseCSV csv = some d)
    (hpos : ∀ l ∈ dataLines csv, 0 ≤ (lineOff l).getD 0 ∧
      0 ≤ (lineDef l).getD 0 ∧ 0 ≤ (lineSt l).getD 0)
    (hr : lookup d k = some r) :
    0 ≤ r.offense_snaps ∧ 0 ≤ r.defense_snaps ∧ 0 ≤ r.st_snaps := by
  obtain ⟨l0, rest, hm, hrec⟩ := parseCSV_lookup_char hp hr
  rw [hrec]
  refine ⟨?_, ?_, ?_⟩
  · show 0 ≤ sumOffKey (dataLines csv) k
    exact List.sum_nonneg (fun x hx => by
      rw [List.mem_map] at hx
      obtain ⟨l, hl, rfl⟩ := hx
      exact (hpos l (List.mem_filter.1 hl).1).1)
  · show 0 ≤ sumDefKey (dataLines csv) k
    exact List.sum_nonneg (fun x hx => by
      rw [List.mem_map] at hx
      obtain ⟨l, hl, rfl⟩ := hx
      exact (hpos l (List.mem_filter.1 hl).1).2.1)
  · show 0 ≤ sumStKey (dataLines csv) k
    exact List.sum_nonneg (fun x hx => by
      rw [List.mem_map] at hx
      obtain ⟨l, hl, rfl⟩ := hx
      exact (hpos l (List.mem_filter.1 hl).1).2.2)

/-- Claim C9 (witness): the amended theorem applied to `exTwoRows`, whose
numeric fields are all nonnegative. -/
theorem C9_amended_witness :
    0 ≤ exTwoAgg.offense_snaps ∧ 0 ≤ exTwoAgg.defense_snaps ∧
    0 ≤ exTwoAgg.st_snaps :=
  C9_amended exTwoRows exTwoDict exTwoKey exTwoAgg (by decide) (by decide)
    (by decide)

/-- Claim C10 (confirmed): when the stripped payload contains no newline —
it is empty, whitespace-only, or a single header line — the run succeeds,
all prior 2025 rows are deleted, zero rows are inserted, and the 2025
portion of the fact table ends empty. -/
theorem C10_header_only (csv : Str) (db : DB)
    (hdb : db.dbExists = true) (hnl : '\n' ∉ pstrip csv) :
    update_database csv db = (Outcome.ok,
      { dbExists := db.dbExists
        rows := db.rows.filter (fun r => !(r.season == 2025)) }) ∧
    seasonRows (update_database csv db).2 = [] := by
  have hnosep : ∀ c ∈ pstrip csv, (c == '\n') = false := fun c hc =>
    beq_eq_false_iff_ne.mpr (fun hh => hnl (hh ▸ hc))
  have hlines : dataLines csv = [] := by
    unfold dataLines csvLines
    rw [pySplit_no_sep hnosep]
    rfl
  have hp : parseCSV csv = some [] := by
    unfold parseCSV
    rw [hlines]
    rfl
  have hu := update_database_ok hdb hp
  constructor
  · rw [hu]
    simp
  · unfold seasonRows
    rw [hu]
    simp [filter_kept_no2025]

/-- Claim C10 (witness): the theorem applied to the header-only payload
`exHeaderOnly` against `exDb`, whose stale 2025 row disappears. -/
theorem C10_header_only_witness :
    update_database exHeaderOnly exDb = (Outcome.ok,
      { dbExists := exDb.dbExists
        rows := exDb.rows.filter (fun r => !(r.season == 2025)) }) ∧
    seasonRows (update_database exHeaderOnly exDb).2 = [] :=
  C10_header_only exHeaderOnly exDb (by decide) (by decide)

end SnapCounts
